import Mathlib

/-!
Verification development for the diskmgt drive registry and
detection-reconciliation core.

The JavaScript source is shallowly embedded:
* a JS object (a drive record) is an ordered association list
  `List (String × String)` with unique keys; `getField` models property
  access (`none` models `undefined`), `setField` models property
  assignment (update in place if the key exists, else append — JS
  insertion-order semantics);
* the single backing file `drives.json` is a `FileState`: absent,
  present but unparseable (`corrupt`), or a parsed `{ drives: [...] }`
  document;
* a JS function that can throw is embedded as an `Except Unit` value;
* timestamps (`new Date().toISOString()`) are strings supplied by the
  caller (the clock is an input of the embedding);
* external process invocations (`execSync` of `blkid`, `ls`, `lsblk`)
  are extra string/oracle arguments supplied by the caller.
-/

namespace Diskmgt

/-- A JS object as an ordered association list of string fields. -/
abbrev Record := List (String × String)

/-- Property read, `r.k` in JS: `none` models `undefined`. -/
def getField (r : Record) (k : String) : Option String :=
  (r.find? (fun p => p.1 = k)).map (fun p => p.2)

/-- Property write, `r[k] = v` in JS: overwrite in place when the key is
present, append otherwise (JS key insertion order). -/
def setField (r : Record) (k v : String) : Record :=
  if r.any (fun p => p.1 = k) then
    r.map (fun p => if p.1 = k then (k, v) else p)
  else
    r ++ [(k, v)]

/-- State of the backing file `~/.config/diskmgt/drives.json`. -/
inductive FileState where
  | absent
  | corrupt
  | ok (drives : List Record)
deriving Repr, DecidableEq

/-- Embedding of `initStorage` in storage.js: creates `{ drives: [] }` when the file
does not exist; an existing (possibly corrupt) file is left alone. -/
def initStorage : FileState → FileState
  | .absent => .ok []
  | s => s

/-- Embedding of `getAllDrives` in storage.js: read and parse the file, returning the
`drives` array; a parse failure is caught and yields `[]`.  Returns the
list together with the post-call file state. -/
def getAllDrives (s : FileState) : List Record × FileState :=
  match initStorage s with
  | .ok ds => (ds, .ok ds)
  | s' => ([], s')

/-- Embedding of `getDriveByUUID` in storage.js. -/
def getDriveByUUID (uuid : String) (s : FileState) : Option Record :=
  (getAllDrives s).1.find? (fun d => getField d "uuid" = some uuid)

/-- The record stored by `addDrive`: the input spread with
`first_seen` and `last_seen` stamped to the current timestamp. -/
def stampRecord (r : Record) (now : String) : Record :=
  setField (setField r "first_seen" now) "last_seen" now

/-- Embedding of `addDrive` in storage.js.  `JSON.parse` of a corrupt file throws
(no try/catch in the source), embedded as `Except.error`.  Returns the
boolean result and the post-call file state. -/
def addDrive (driveData : Record) (now : String) (s : FileState) :
    Except Unit (Bool × FileState) :=
  match initStorage s with
  | .ok ds =>
    if ds.any (fun d => getField d "uuid" = getField driveData "uuid") then
      .ok (false, .ok ds)
    else
      .ok (true, .ok (ds ++ [stampRecord driveData now]))
  | _ => .error ()

/-- The source's `data.drives.find(...)` followed by in-place mutation: only the
first record whose `uuid` field equals `uuid` is rewritten. -/
def updateFirst (ds : List Record) (uuid : String) (f : Record → Record) :
    List Record :=
  match ds with
  | [] => []
  | d :: rest =>
    if getField d "uuid" = some uuid then f d :: rest
    else d :: updateFirst rest uuid f

/-- Embedding of `updateLastSeen` in storage.js: sets `last_seen` on the first record
with the given uuid; throws on a corrupt file. -/
def updateLastSeen (uuid now : String) (s : FileState) :
    Except Unit FileState :=
  match initStorage s with
  | .ok ds => .ok (.ok (updateFirst ds uuid (fun d => setField d "last_seen" now)))
  | _ => .error ()

/-- Embedding of `updateDriveField` in storage.js: returns whether the uuid was found;
throws on a corrupt file. -/
def updateDriveField (uuid field value : String) (s : FileState) :
    Except Unit (Bool × FileState) :=
  match initStorage s with
  | .ok ds =>
    if ds.any (fun d => getField d "uuid" = some uuid) then
      .ok (true, .ok (updateFirst ds uuid (fun d => setField d field value)))
    else
      .ok (false, .ok ds)
  | _ => .error ()

/-- Embedding of `removeDrive` in storage.js: keeps every record whose uuid differs;
throws on a corrupt file. -/
def removeDrive (uuid : String) (s : FileState) : Except Unit FileState :=
  match initStorage s with
  | .ok ds => .ok (.ok (ds.filter (fun d => ¬ (getField d "uuid" = some uuid))))
  | _ => .error ()

/-- A detected drive: the object built per device by `detectDrives` in
detect.js (fields `name`, `size`, `type`, `mountpoint`, `fstype`,
`model`, `uuid`, `device`, every one a string after defaulting). -/
structure Drive where
  name : String
  size : String
  type : String
  mountpoint : String
  fstype : String
  model : String
  uuid : String
  device : String
deriving Repr, DecidableEq

/-- Embedding of `displayDriveList` in display.js, restricted to the data it computes
per known drive: `isConnected = detectedUUIDs.has(drive.uuid)` (a stored
record with no `uuid` field reads as `undefined`, never in the set of
detected uuid strings), and for a connected drive the first matching
detected node is attached for mount display.  One output row per known
record, in the known records' order. -/
def reconcile (detectedDrives : List Drive) (knownDrives : List Record) :
    List (Record × Bool × Option Drive) :=
  let detectedUUIDs := detectedDrives.map (fun d => d.uuid)
  knownDrives.map (fun drive =>
    let isConnected := match getField drive "uuid" with
      | some u => detectedUUIDs.contains u
      | none => false
    let attached := if isConnected then
        detectedDrives.find? (fun d => getField drive "uuid" = some d.uuid)
      else none
    (drive, isConnected, attached))

/-- One iteration of the `detected.forEach` loop in `showDrives`
(index.js): `if (storage.getDriveByUUID(d.uuid)) storage.updateLastSeen(d.uuid)`. -/
def touchStep (now : String) (s : FileState) (d : Drive) : Except Unit FileState :=
  if (getDriveByUUID d.uuid s).isSome then updateLastSeen d.uuid now s
  else .ok s

/-- The whole `detected.forEach` loop in `showDrives` (index.js): touch
`last_seen` of every registered record whose uuid is currently live.
The timestamp of each `new Date()` call is supplied as `now`. -/
def touchLoop (detected : List Drive) (now : String) (s : FileState) :
    Except Unit FileState :=
  match detected with
  | [] => .ok s
  | d :: rest => do
    let s' ← touchStep now s d
    touchLoop rest now s'

/-! ### String utilities mirroring the JS string operations used -/

/-- Whether `needle` matches at the start of `hay` (JS `String.startsWith`). -/
def leadsWith : List Char → List Char → Bool
  | [], _ => true
  | _ :: _, [] => false
  | a :: as, b :: bs => a = b && leadsWith as bs

/-- JS `String.includes`: `needle` occurs contiguously in `hay`. -/
def hasSub (needle : List Char) : List Char → Bool
  | [] => leadsWith needle []
  | b :: bs => leadsWith needle (b :: bs) || hasSub needle bs

/-- JS `hay.includes(needle)` on strings. -/
def strIncludes (hay needle : String) : Bool :=
  hasSub needle.toList hay.toList

/-- JS `s.startsWith(p)` on strings. -/
def strStartsWith (s p : String) : Bool :=
  leadsWith p.toList s.toList

/-- JS `String.trim`: strip leading and trailing whitespace. -/
def trimStr (s : String) : String :=
  String.mk (((s.toList.dropWhile Char.isWhitespace).reverse.dropWhile
    Char.isWhitespace).reverse)

/-- JS `s.toLowerCase()`. -/
def lowerStr (s : String) : String := String.mk (s.toList.map Char.toLower)

/-- The regex replace `/\s+/g → '-'`: each maximal whitespace run
becomes a single dash.  `prevWs` records whether the previous character
was part of a run already replaced. -/
def collapseWsAux (prevWs : Bool) : List Char → List Char
  | [] => []
  | c :: rest =>
    if c.isWhitespace then
      (if prevWs then [] else ['-']) ++ collapseWsAux true rest
    else c :: collapseWsAux false rest

/-- The regex replace `/\([^)]*\)/g → ''` (fuel-indexed worker; every
step consumes at least one character, so fuel = input length suffices):
a `(` with a later `)` is deleted together with everything up to that
first `)`; a `(` with no closing `)` is kept (no match there). -/
def stripParensAux : Nat → List Char → List Char
  | _, [] => []
  | 0, cs => cs
  | fuel + 1, c :: rest =>
    if c = '(' ∧ rest.contains ')' then
      stripParensAux fuel ((rest.dropWhile (fun x => x ≠ ')')).drop 1)
    else c :: stripParensAux fuel rest

/-- The regex replace `/\([^)]*\)/g → ''`. -/
def stripParens (cs : List Char) : List Char := stripParensAux cs.length cs

/-- Sanitization in priority 2 of `generateSmartLabel`:
strip parenthetical text, collapse whitespace to `-`, truncate to 20. -/
def cleanOsName (osType : String) : String :=
  String.mk ((collapseWsAux false (stripParens osType.toList)).take 20)

/-- JS `s.replace(/\s+/g, '-').substring(0, 20)`. -/
def dashTrunc20 (s : String) : String :=
  String.mk ((collapseWsAux false s.toList).take 20)

/-- JS `mountName.replace(/[^a-zA-Z0-9-_]/g, '-')`. -/
def sanitizeMountName (s : String) : String :=
  String.mk (s.toList.map (fun c =>
    if c.isAlphanum ∨ c = '-' ∨ c = '_' then c else '-'))

/-- Node `path.basename` on a POSIX path: drop trailing slashes, take
the final segment; a path of only slashes gives `"/"`, `""` gives `""`. -/
def basenameStr (s : String) : String :=
  let r := s.toList.reverse.dropWhile (fun c => c = '/')
  if r = [] then (if s.toList = [] then "" else "/")
  else String.mk ((r.takeWhile (fun c => c ≠ '/')).reverse)

/-- JS `drive.size.replace(/\./g, '')`. -/
def removeDots (s : String) : String :=
  String.mk (s.toList.filter (fun c => c ≠ '.'))

/-- JS `drive.device.replace(/p?\d+$/, '')`: strip a trailing digit run and
one optional `p` right before it (parent device of a partition). -/
def stripPartSuffix (s : String) : String :=
  let r := s.toList.reverse
  if (r.takeWhile Char.isDigit) = [] then s
  else
    let r' := r.dropWhile Char.isDigit
    match r' with
    | 'p' :: t => String.mk t.reverse
    | t => String.mk t.reverse

/-! ### Auto-labeler (autoregister.js) -/

/-- One entry of `lxdInfo.pools`. -/
structure LXDPool where
  name : String
deriving Repr, DecidableEq

/-- The `lxdInfo` component of the detailed-info probe (lxcinfo.js). -/
structure LXDInfo where
  isLXD : Bool
  pools : List LXDPool
  containers : List String
deriving Repr, DecidableEq

/-- One entry of `osInfo`; `osType = ""` models a missing/empty
(JS-falsy) `osType`. -/
structure OSEntry where
  osType : String
deriving Repr, DecidableEq

/-- The content probe `detailedInfo` (diskinfo.js) as consumed by
`generateSmartLabel` / `detectPurpose`.  `lxdInfo = none` models an
absent `lxdInfo`; an absent `osInfo` collapses to `[]` (the source only
tests `osInfo && osInfo.length > 0`, which is the same test). -/
structure DetailedInfo where
  lxdInfo : Option LXDInfo
  osInfo : List OSEntry
  bootable : Bool
  bootPartitions : List String
deriving Repr, DecidableEq

/-- Priority 6 (model name) and the fallback of `generateSmartLabel`. -/
def labelP6 (drive : Drive) : String :=
  if drive.model ≠ "" ∧ drive.model ≠ "Unknown Model" ∧ drive.model ≠ "unknown" then
    dashTrunc20 drive.model
  else
    drive.name ++ "-" ++ removeDots drive.size

/-- Priority 5 of `generateSmartLabel` (filesystem volume label).  The
source runs `blkid -s LABEL -o value <device>` here via `execSync`;
`blkidLabel` is the raw stdout of that external command (`""` when the
command fails, matching the `|| true` fallback). -/
def labelP5 (drive : Drive) (blkidLabel : String) : String :=
  if drive.fstype = "vfat" ∨ drive.fstype = "ntfs" then
    let label := trimStr blkidLabel
    if label ≠ "" then dashTrunc20 label else labelP6 drive
  else labelP6 drive

/-- Priority 4 of `generateSmartLabel` (mount point). -/
def labelP4 (drive : Drive) (blkidLabel : String) : String :=
  if drive.mountpoint ≠ "" ∧ drive.mountpoint ≠ "not mounted" then
    let mountName := basenameStr drive.mountpoint
    if mountName ≠ "" ∧ mountName ≠ "/" then sanitizeMountName mountName
    else if drive.mountpoint = "/" then "Root-System"
    else labelP5 drive blkidLabel
  else labelP5 drive blkidLabel

/-- Priority 3 of `generateSmartLabel` (boot partition). -/
def labelP3 (drive : Drive) (info : DetailedInfo) (blkidLabel : String) : String :=
  if info.bootable ∧ info.bootPartitions.length > 0 then "Boot-Drive"
  else labelP4 drive blkidLabel

/-- Priority 2 of `generateSmartLabel` (OS installation). -/
def labelP2 (drive : Drive) (info : DetailedInfo) (blkidLabel : String) : String :=
  match info.osInfo with
  | [] => labelP3 drive info blkidLabel
  | os :: _ =>
    if os.osType ≠ "" ∧ os.osType ≠ "Unknown" ∧ ¬ strIncludes os.osType "Unknown" then
      cleanOsName os.osType
    else labelP3 drive info blkidLabel

/-- Embedding of `generateSmartLabel` in autoregister.js.  `blkidLabel` is the output
of the external `blkid` query the function itself runs in priority 5. -/
def generateSmartLabel (drive : Drive) (info : DetailedInfo)
    (blkidLabel : String) : String :=
  match info.lxdInfo with
  | some lxd =>
    if lxd.isLXD then
      match lxd.pools with
      | pool :: _ => "LXD-" ++ pool.name
      | [] => "LXD-Storage"
    else labelP2 drive info blkidLabel
  | none => labelP2 drive info blkidLabel

/-- Last stage of `detectPurpose` (directory-name keyword scan plus
default).  The source runs `ls -1 <mountpoint> | head -10` here via
`execSync`; `dirs` is the stdout of that external command. -/
def purposeP6 (drive : Drive) (dirs : String) : String :=
  if drive.mountpoint ≠ "" ∧ drive.mountpoint ≠ "not mounted" then
    let ds := trimStr dirs
    if strIncludes ds "backup" ∨ strIncludes ds "Backup" then "Backup Storage"
    else if strIncludes ds "Media" ∨ strIncludes ds "media" then "Media Storage"
    else if strIncludes ds "Documents" ∨ strIncludes ds "documents" then
      "Document Storage"
    else "General Storage"
  else "General Storage"

/-- Swap-detection stage of `detectPurpose`. -/
def purposeP5 (drive : Drive) (dirs : String) : String :=
  if drive.fstype = "swap" then "Swap Memory" else purposeP6 drive dirs

/-- Mount-path keyword stage of `detectPurpose`. -/
def purposeP4 (drive : Drive) (dirs : String) : String :=
  if drive.mountpoint ≠ "" ∧ drive.mountpoint ≠ "not mounted" then
    let mount := lowerStr drive.mountpoint
    if strIncludes mount "backup" ∨ strIncludes mount "timeshift" then "Backup"
    else if strIncludes mount "media" ∨ strIncludes mount "videos" ∨
        strIncludes mount "music" then "Media Storage"
    else if strIncludes mount "data" ∨ strIncludes mount "storage" then
      "Data Storage"
    else if strIncludes mount "project" ∨ strIncludes mount "dev" then
      "Development"
    else if mount = "/" then "System Root"
    else purposeP5 drive dirs
  else purposeP5 drive dirs

/-- Embedding of `detectPurpose` in autoregister.js.  `dirs` is the output of the
external `ls` listing the function itself runs in its last stage. -/
def detectPurpose (drive : Drive) (info : DetailedInfo) (dirs : String) : String :=
  match info.lxdInfo with
  | some lxd =>
    if lxd.isLXD then
      if lxd.containers.length > 0 then
        "LXD Storage (" ++ toString lxd.containers.length ++ " containers)"
      else "LXD Storage"
    else
      if info.osInfo.length > 0 then "Operating System"
      else if info.bootable then "System Boot"
      else purposeP4 drive dirs
  | none =>
    if info.osInfo.length > 0 then "Operating System"
    else if info.bootable then "System Boot"
    else purposeP4 drive dirs

/-- Embedding of `getDriveType` in detect.js. -/
def getDriveType (name : String) : String :=
  if strStartsWith name "mmcblk" then "SD Card"
  else if strStartsWith name "nvme" then "NVMe SSD"
  else if strStartsWith name "sd" then "USB/SATA Drive"
  else "Unknown"

/-- Embedding of `autoRegisterDrive` in autoregister.js.  The external collaborators
are passed as oracles: `infoOf` is `diskinfo.getDetailedDiskInfo` on the
parent device path, `blkidOf` / `dirsOf` supply the outputs of the
external commands run inside `generateSmartLabel` / `detectPurpose`. -/
def autoRegisterDrive (drive : Drive) (infoOf : String → DetailedInfo)
    (blkidOf : String → String) (dirsOf : String → String) : Record :=
  let devicePath := stripPartSuffix drive.device
  let detailedInfo := infoOf devicePath
  let label := generateSmartLabel drive detailedInfo (blkidOf drive.device)
  let purpose := detectPurpose drive detailedInfo (dirsOf drive.mountpoint)
  let driveType := getDriveType drive.name
  [("uuid", drive.uuid), ("label", label), ("size", drive.size),
   ("type", driveType), ("purpose", purpose), ("device", drive.device)]

/-- Embedding of `autoRegisterAll` in autoregister.js: only partitions, only those
whose uuid is not among the known records' uuids; each surviving drive
is auto-registered (the embedding is pure, so the per-drive try/catch
never fires). -/
def autoRegisterAll (detectedDrives : List Drive) (knownDrives : List Record)
    (infoOf : String → DetailedInfo) (blkidOf : String → String)
    (dirsOf : String → String) : List Record :=
  let knownUUIDs := knownDrives.map (fun d => getField d "uuid")
  let partitions := detectedDrives.filter (fun d => d.type = "part")
  let unregistered := partitions.filter (fun d => ¬ knownUUIDs.contains (some d.uuid))
  unregistered.map (fun d => autoRegisterDrive d infoOf blkidOf dirsOf)

/-! ### Device scanner (detect.js) -/

/-- One node of the `lsblk --json` output tree: the fields read by
`processDrive`, with `none` modelling a JSON `null`/missing field. -/
inductive LsblkDev where
  | node (name : String) (size : Nat) (type : String)
      (mountpoint fstype model uuid : Option String)
      (children : List LsblkDev)

/-- JS `x || dflt` on an optional string field: `null`/missing and the
empty string are falsy. -/
def jsOr (o : Option String) (dflt : String) : String :=
  match o with
  | some s => if s = "" then dflt else s
  | none => dflt

/-- JS `toFixed(1)` of a nonnegative number: one decimal digit, ties
rounded up (ECMAScript picks the larger candidate). -/
def toFixed1 (q : ℚ) : String :=
  let n := (⌊q * 10 + 1 / 2⌋).toNat
  toString (n / 10) ++ "." ++ toString (n % 10)

/-- The unit ladder of `formatSize`. -/
def sizeUnits : List String := ["B", "KB", "MB", "GB", "TB"]

/-- The `while (size >= 1024 && unitIndex < units.length - 1)` loop of
`formatSize` (fuel-indexed: each iteration increments `unitIndex`, which
the guard bounds by `sizeUnits.length - 1`, so that much fuel suffices).
Division by 1024 is exact in binary floating point, so rationals model
the JS number arithmetic faithfully here. -/
def formatSizeAux : Nat → ℚ → Nat → ℚ × Nat
  | 0, size, unitIndex => (size, unitIndex)
  | fuel + 1, size, unitIndex =>
    if size ≥ 1024 ∧ unitIndex < sizeUnits.length - 1 then
      formatSizeAux fuel (size / 1024) (unitIndex + 1)
    else (size, unitIndex)

/-- Embedding of `formatSize` in detect.js. -/
def formatSize (bytes : Nat) : String :=
  let p := formatSizeAux (sizeUnits.length - 1) (bytes : ℚ) 0
  toFixed1 p.1 ++ sizeUnits.getD p.2 ""

mutual

/-- Embedding of `processDrive` in detect.js: skip kinds other than `disk`/`part`
(children of a skipped node are skipped too, since the source returns
before recursing), push the node's entry, then recurse into children
(their pushes land right after the parent's). -/
def processDrive : LsblkDev → List Drive
  | .node name size ty mp fs md uu children =>
    if ty ≠ "disk" ∧ ty ≠ "part" then []
    else
      { name := name, size := formatSize size, type := ty,
        mountpoint := jsOr mp "not mounted", fstype := jsOr fs "unknown",
        model := jsOr md "Unknown Model",
        uuid := jsOr uu ("NO-UUID-" ++ name),
        device := "/dev/" ++ name } ::
      processChildren children

/-- The `device.children.forEach(child => processDrive(child))` loop:
each child's entries are appended in child order. -/
def processChildren : List LsblkDev → List Drive
  | [] => []
  | c :: cs => processDrive c ++ processChildren cs

end

/-- Embedding of `detectDrives` in detect.js, applied to an already-parsed lsblk
tree (`data.blockdevices`); the surrounding try/catch returns `[]` when
the external `lsblk` query fails, which the embedding takes as given. -/
def detectDrives (blockdevices : List LsblkDev) : List Drive :=
  (blockdevices.map processDrive).flatten

/-- A sequence of `addDrive` calls (record + timestamp of each call),
as issued by successive registrations; a thrown call leaves the state
as it was (the exception aborts the caller). -/
def addSeq (ps : List (Record × String)) (s : FileState) : FileState :=
  match ps with
  | [] => s
  | (r, t) :: rest =>
    match addDrive r t s with
    | .ok (_, s') => addSeq rest s'
    | .error _ => s

/-- The registry-store operations a user session can issue (the
arguments of each mutating call, with each call's `new Date()` timestamp
supplied as data). -/
inductive Op where
  | init
  | add (r : Record) (now : String)
  | touch (uuid now : String)
  | remove (uuid : String)

/-- Apply one store operation to the backing file; a thrown operation
leaves the file as it was (the exception aborts the caller before any
write). -/
def applyOp (s : FileState) : Op → FileState
  | .init => initStorage s
  | .add r now =>
    match addDrive r now s with
    | .ok (_, s') => s'
    | .error _ => s
  | .touch u now =>
    match updateLastSeen u now s with
    | .ok s' => s'
    | .error _ => s
  | .remove u =>
    match removeDrive u s with
    | .ok s' => s'
    | .error _ => s

/-- Run a whole session of store operations from the empty store. -/
def runOps (ops : List Op) : FileState := ops.foldl applyOp (.ok [])

/-- A concrete live scan: one connected partition (used to instantiate
theorems with hypotheses at an evaluable input). -/
def liveFixture : List Drive :=
  [⟨"sdb1", "1.0GB", "part", "/mnt/usb", "ext4", "unknown", "abc-123", "/dev/sdb1"⟩]

/-- A concrete registry: one record matching the live scan, one
offline record. -/
def knownFixture : List Record :=
  [[("uuid", "abc-123"), ("label", "Test")], [("uuid", "zzz"), ("label", "Off")]]

/-! ### Basic lemmas about field access -/

theorem getField_cons (p : String × String) (r : Record) (k : String) :
    getField (p :: r) k = if p.1 = k then some p.2 else getField r k := by
  by_cases h : p.1 = k <;> simp [getField, List.find?_cons, h]

theorem getField_append (r1 r2 : Record) (k : String) :
    getField (r1 ++ r2) k =
      match getField r1 k with
      | some v => some v
      | none => getField r2 k := by
  induction r1 with
  | nil => simp [getField]
  | cons hd tl ih =>
    by_cases h : hd.1 = k <;> simp [getField_cons, h, ih]

theorem getField_eq_none_of_not_any (r : Record) (k : String)
    (h : r.any (fun q => q.1 = k) = false) :
    getField r k = none := by
  induction r with
  | nil => simp [getField]
  | cons hd tl ih =>
    simp only [List.any_cons, Bool.or_eq_false_iff, decide_eq_false_iff_not] at h
    simp [getField_cons, h.1, ih h.2]

theorem getField_mapSet (r : Record) (k v k' : String) :
    getField (r.map (fun q => if q.1 = k then (k, v) else q)) k' =
      if k' = k then (if r.any (fun q => q.1 = k) then some v else none)
      else getField r k' := by
  induction r with
  | nil => by_cases h : k' = k <;> simp [getField, h]
  | cons hd tl ih =>
    by_cases hhd : hd.1 = k
    · by_cases h : k' = k
      · subst h; simp [getField_cons, hhd, ih]
      · have hne : hd.1 ≠ k' := by rw [hhd]; exact fun hc => h hc.symm
        have hks : ¬ (k = k') := fun hc => h hc.symm
        simp [getField_cons, hhd, hne, h, hks, ih]
    · by_cases h : k' = k
      · subst h
        have hne : hd.1 ≠ k' := hhd
        simp [getField_cons, hhd, hne, ih, List.any_cons]
        rw [decide_eq_false hhd]
        rw [Bool.false_or]
      · by_cases hk' : hd.1 = k' <;> simp [getField_cons, hhd, hk', h, ih]

theorem getField_setField (r : Record) (k v k' : String) :
    getField (setField r k v) k' = if k' = k then some v else getField r k' := by
  by_cases hany : r.any (fun q => q.1 = k)
  · rw [setField, if_pos hany, getField_mapSet, hany]
    simp
  · have hany' : r.any (fun q => q.1 = k) = false := by
      cases hval : r.any (fun q => q.1 = k)
      · rfl
      · exact absurd hval hany
    rw [setField, if_neg hany, getField_append]
    by_cases h : k' = k
    · subst h
      rw [getField_eq_none_of_not_any r k' hany']
      simp [getField_cons]
    · have hks : ¬ (k = k') := fun hc => h hc.symm
      cases hg : getField r k' <;> simp [getField_cons, hks, hg, getField, h]

theorem getField_setField_same (r : Record) (k v : String) :
    getField (setField r k v) k = some v := by
  simp [getField_setField]

theorem getField_setField_ne (r : Record) (k v k' : String) (h : k' ≠ k) :
    getField (setField r k v) k' = getField r k' := by
  simp [getField_setField, h]

/-- Stamping the timestamps does not change any other field. -/
theorem getField_stampRecord_ne (r : Record) (now k : String)
    (h1 : k ≠ "first_seen") (h2 : k ≠ "last_seen") :
    getField (stampRecord r now) k = getField r k := by
  rw [stampRecord, getField_setField_ne _ _ _ _ h2, getField_setField_ne _ _ _ _ h1]

theorem getField_stampRecord_uuid (r : Record) (now : String) :
    getField (stampRecord r now) "uuid" = getField r "uuid" := by
  apply getField_stampRecord_ne <;> decide

theorem getField_stampRecord_stamps (r : Record) (now : String) :
    getField (stampRecord r now) "first_seen" = some now ∧
    getField (stampRecord r now) "last_seen" = some now := by
  constructor
  · rw [stampRecord, getField_setField_ne _ _ _ _ (by decide), getField_setField_same]
  · rw [stampRecord, getField_setField_same]

/-! ### Claim theorems -/

/-- C1 (counterexample): `add` invoked on a corrupt backing file does
raise: the uncaught `JSON.parse` failure surfaces as an error, rather
than being turned into an empty or negative result. -/
theorem addDrive_corrupt_throws :
    addDrive [("uuid", "abc-123"), ("label", "Test")] "2024-01-01T00:00:00.000Z"
      FileState.corrupt = .error () := rfl

/-- C1 (amended): on a corrupt (unparseable) backing file, `all()` and
`get(uuid)` do not raise — they return the empty sequence / nothing,
treating corruption as "nothing registered" — but every mutating
operation (`add`, `touch`, `updateField`, `remove`) propagates the parse
exception instead of being turned into a negative result. -/
theorem store_ops_on_corrupt_file (u f v : String) (r : Record) (now : String) :
    getAllDrives FileState.corrupt = ([], FileState.corrupt) ∧
    getDriveByUUID u FileState.corrupt = none ∧
    addDrive r now FileState.corrupt = .error () ∧
    updateLastSeen u now FileState.corrupt = .error () ∧
    updateDriveField u f v FileState.corrupt = .error () ∧
    removeDrive u FileState.corrupt = .error () :=
  ⟨rfl, rfl, rfl, rfl, rfl, rfl⟩

/-- C8: `formatSize` walks the 1024-based unit ladder B→KB→MB→GB→TB and
renders one decimal place: 0 → "0.0B", 1536 → "1.5KB",
1073741824 → "1.0GB". -/
theorem formatSize_ladder_values :
    formatSize 0 = "0.0B" ∧ formatSize 1536 = "1.5KB" ∧
    formatSize 1073741824 = "1.0GB" := by
  refine ⟨?_, ?_, ?_⟩ <;>
    · norm_num [formatSize, formatSizeAux, toFixed1, sizeUnits]
      rfl

/-- C2: for every device node and content probe with a detected
container-storage pool (LXD, pools nonempty) and an active mount path,
`generateSmartLabel` returns the label derived from the first pool's
name — never one derived from the mount path. -/
theorem label_pool_overrides_mount (drive : Drive) (info : DetailedInfo)
    (blkidLabel : String) (lxd : LXDInfo) (pool : LXDPool) (rest : List LXDPool)
    (hlxd : info.lxdInfo = some lxd) (hisLXD : lxd.isLXD = true)
    (hpools : lxd.pools = pool :: rest)
    (hmounted : drive.mountpoint ≠ "" ∧ drive.mountpoint ≠ "not mounted") :
    generateSmartLabel drive info blkidLabel = "LXD-" ++ pool.name := by
  simp [generateSmartLabel, hlxd, hisLXD, hpools]

/-- Witness for C2 at a concrete mounted drive with an LXD pool. -/
theorem label_pool_overrides_mount_witness :
    generateSmartLabel
      { name := "sdb1", size := "32.0GB", type := "part",
        mountpoint := "/mnt/pool", fstype := "ext4", model := "SanDisk",
        uuid := "abc-123", device := "/dev/sdb1" }
      { lxdInfo := some ⟨true, [⟨"default"⟩], []⟩, osInfo := [],
        bootable := false, bootPartitions := [] }
      "" = "LXD-" ++ "default" :=
  label_pool_overrides_mount _ _ _ ⟨true, [⟨"default"⟩], []⟩ ⟨"default"⟩ []
    rfl rfl rfl (by decide)

/-- C6 (counterexample): `generateSmartLabel` and `detectPurpose` are
not functions of the device node and content probe alone: each runs an
external command itself (`blkid` for a vfat/ntfs node, `ls` on the
mount point), and two invocations on identical node and probe give
different strings when that command's output differs. -/
theorem smartLabel_reads_external_state :
    (generateSmartLabel
      { name := "sdb1", size := "1.0GB", type := "part",
        mountpoint := "not mounted", fstype := "vfat", model := "unknown",
        uuid := "U-7", device := "/dev/sdb1" }
      { lxdInfo := none, osInfo := [], bootable := false, bootPartitions := [] }
      "LABEL1" ≠
     generateSmartLabel
      { name := "sdb1", size := "1.0GB", type := "part",
        mountpoint := "not mounted", fstype := "vfat", model := "unknown",
        uuid := "U-7", device := "/dev/sdb1" }
      { lxdInfo := none, osInfo := [], bootable := false, bootPartitions := [] }
      "LABEL2") ∧
    (detectPurpose
      { name := "sdb2", size := "1.0GB", type := "part",
        mountpoint := "/mnt/z", fstype := "ext4", model := "unknown",
        uuid := "U-8", device := "/dev/sdb2" }
      { lxdInfo := none, osInfo := [], bootable := false, bootPartitions := [] }
      "Documents\nphotos" ≠
     detectPurpose
      { name := "sdb2", size := "1.0GB", type := "part",
        mountpoint := "/mnt/z", fstype := "ext4", model := "unknown",
        uuid := "U-8", device := "/dev/sdb2" }
      { lxdInfo := none, osInfo := [], bootable := false, bootPartitions := [] }
      "misc") := by
  constructor <;> decide

/-- C6 (amended): the two inference functions are deterministic given
the node, the probe, and the outputs of the external commands they run;
away from those branches (non-FAT/NTFS filesystem for the label, no
active mount for the purpose) they are functions of node and probe
alone. -/
theorem label_purpose_pure_given_probes (drive : Drive) (info : DetailedInfo)
    (b1 b2 d1 d2 : String)
    (hfs : drive.fstype ≠ "vfat" ∧ drive.fstype ≠ "ntfs")
    (hmp : drive.mountpoint = "not mounted") :
    generateSmartLabel drive info b1 = generateSmartLabel drive info b2 ∧
    detectPurpose drive info d1 = detectPurpose drive info d2 := by
  constructor
  · simp [generateSmartLabel, labelP2, labelP3, labelP4, labelP5, labelP6,
      hmp, hfs.1, hfs.2]
  · simp [detectPurpose, purposeP4, purposeP5, purposeP6, hmp]

/-- Witness for the amended C6 at a concrete unmounted ext4 drive. -/
theorem label_purpose_pure_given_probes_witness :
    (generateSmartLabel
      { name := "sdc1", size := "2.0GB", type := "part",
        mountpoint := "not mounted", fstype := "ext4", model := "unknown",
        uuid := "U-9", device := "/dev/sdc1" }
      { lxdInfo := none, osInfo := [], bootable := false, bootPartitions := [] }
      "X" =
     generateSmartLabel
      { name := "sdc1", size := "2.0GB", type := "part",
        mountpoint := "not mounted", fstype := "ext4", model := "unknown",
        uuid := "U-9", device := "/dev/sdc1" }
      { lxdInfo := none, osInfo := [], bootable := false, bootPartitions := [] }
      "Y") ∧
    (detectPurpose
      { name := "sdc1", size := "2.0GB", type := "part",
        mountpoint := "not mounted", fstype := "ext4", model := "unknown",
        uuid := "U-9", device := "/dev/sdc1" }
      { lxdInfo := none, osInfo := [], bootable := false, bootPartitions := [] }
      "A" =
     detectPurpose
      { name := "sdc1", size := "2.0GB", type := "part",
        mountpoint := "not mounted", fstype := "ext4", model := "unknown",
        uuid := "U-9", device := "/dev/sdc1" }
      { lxdInfo := none, osInfo := [], bootable := false, bootPartitions := [] }
      "B") :=
  label_purpose_pure_given_probes _ _ "X" "Y" "A" "B" (by decide) rfl

/-- Fresh-uuid `add` appends the stamped record; duplicate-uuid `add`
returns false and leaves the collection untouched (helper facts). -/
theorem any_uuid_eq_false (ds : List Record) (r : Record)
    (h : ∀ d ∈ ds, getField d "uuid" ≠ getField r "uuid") :
    ds.any (fun d => getField d "uuid" = getField r "uuid") = false := by
  rw [List.any_eq_false]
  intro d hd
  simp [h d hd]

/-- C4: `add` on a uuid already present returns `false` and leaves the
stored collection completely unchanged; on a fresh uuid it succeeds,
appending the record stamped with `first_seen = last_seen = now`. -/
theorem addDrive_duplicate_and_fresh (ds : List Record) (r : Record) (now : String) :
    ((∃ d ∈ ds, getField d "uuid" = getField r "uuid") →
      addDrive r now (.ok ds) = .ok (false, .ok ds)) ∧
    ((∀ d ∈ ds, getField d "uuid" ≠ getField r "uuid") →
      addDrive r now (.ok ds) = .ok (true, .ok (ds ++ [stampRecord r now])) ∧
      getField (stampRecord r now) "first_seen" = some now ∧
      getField (stampRecord r now) "last_seen" = some now) := by
  constructor
  · rintro ⟨d, hd, he⟩
    have hany : ds.any (fun d => getField d "uuid" = getField r "uuid") = true :=
      List.any_eq_true.mpr ⟨d, hd, by simp [he]⟩
    simp [addDrive, initStorage, hany]
  · intro h
    refine ⟨?_, (getField_stampRecord_stamps r now).1,
      (getField_stampRecord_stamps r now).2⟩
    simp [addDrive, initStorage, any_uuid_eq_false ds r h]

/-- Witness for C4: a duplicate `add` is rejected without change, a
fresh `add` is appended with both timestamps stamped. -/
theorem addDrive_duplicate_and_fresh_witness :
    addDrive [("uuid", "a"), ("x", "1")] "t9"
      (.ok [[("uuid", "a"), ("label", "L")]]) =
      .ok (false, .ok [[("uuid", "a"), ("label", "L")]]) ∧
    addDrive [("uuid", "b"), ("x", "1")] "t9"
      (.ok [[("uuid", "a"), ("label", "L")]]) =
      .ok (true, .ok [[("uuid", "a"), ("label", "L")],
        [("uuid", "b"), ("x", "1"), ("first_seen", "t9"), ("last_seen", "t9")]]) := by
  constructor
  · exact (addDrive_duplicate_and_fresh [[("uuid", "a"), ("label", "L")]]
      [("uuid", "a"), ("x", "1")] "t9").1 ⟨[("uuid", "a"), ("label", "L")], by decide, by decide⟩
  · exact ((addDrive_duplicate_and_fresh [[("uuid", "a"), ("label", "L")]]
      [("uuid", "b"), ("x", "1")] "t9").2 (by decide)).1

/-- A fresh-uuid add sequence appends all stamped records in order
(generalized over the initial collection). -/
theorem addSeq_ok (ps : List (Record × String)) (ds : List Record)
    (hfresh : ∀ p ∈ ps, ∀ d ∈ ds, getField d "uuid" ≠ getField p.1 "uuid")
    (hnodup : (ps.map (fun p => getField p.1 "uuid")).Nodup) :
    addSeq ps (.ok ds) = .ok (ds ++ ps.map (fun p => stampRecord p.1 p.2)) := by
  induction ps generalizing ds with
  | nil => simp [addSeq]
  | cons p rest ih =>
    obtain ⟨r, t⟩ := p
    have hhead : ∀ d ∈ ds, getField d "uuid" ≠ getField r "uuid" := by
      intro d hd
      exact hfresh (r, t) (List.mem_cons_self _ _) d hd
    have hadd : addDrive r t (.ok ds) =
        .ok (true, .ok (ds ++ [stampRecord r t])) := by
      simp [addDrive, initStorage, any_uuid_eq_false ds r hhead]
    rw [List.map_cons, List.nodup_cons] at hnodup
    have hrest := ih (ds ++ [stampRecord r t]) ?_ hnodup.2
    · show (match addDrive r t (FileState.ok ds) with
        | .ok (_, s') => addSeq rest s'
        | .error _ => FileState.ok ds) = _
      rw [hadd]
      simp only [hrest, List.map_cons, List.append_assoc, List.singleton_append]
    · intro p' hp' d hd
      rcases List.mem_append.mp hd with hds | hone
      · exact hfresh p' (List.mem_cons_of_mem _ hp') d hds
      · have hde : d = stampRecord r t := by simpa using hone
        rw [hde, getField_stampRecord_uuid]
        intro hc
        exact hnodup.1 (hc ▸ List.mem_map_of_mem (fun p => getField p.1 "uuid") hp')

/-- Lookup in the stamped output finds exactly the stamped record of
the unique input carrying that uuid. -/
theorem find?_stamped (ps : List (Record × String)) (p : Record × String)
    (u : String) (hp : p ∈ ps) (hu : getField p.1 "uuid" = some u)
    (hnodup : (ps.map (fun q => getField q.1 "uuid")).Nodup) :
    (ps.map (fun q => stampRecord q.1 q.2)).find?
        (fun d => getField d "uuid" = some u) = some (stampRecord p.1 p.2) := by
  induction ps with
  | nil => cases hp
  | cons q rest ih =>
    rw [List.map_cons, List.nodup_cons] at hnodup
    rcases List.mem_cons.mp hp with hq | hrest
    · subst hq
      have : getField (stampRecord p.1 p.2) "uuid" = some u := by
        rw [getField_stampRecord_uuid]; exact hu
      simp [List.find?_cons, this]
    · have hne : getField (stampRecord q.1 q.2) "uuid" ≠ some u := by
        rw [getField_stampRecord_uuid]
        intro hc
        apply hnodup.1
        rw [hc, ← hu]
        exact List.mem_map_of_mem (fun p => getField p.1 "uuid") hrest
      simp only [List.map_cons, List.find?_cons]
      rw [decide_eq_false hne]
      exact ih hrest hnodup.2

/-- C3: starting from the empty store, a sequence of `add` calls with
pairwise-distinct uuids stores exactly the given records in call order
(stamped with their timestamps), each independently retrievable by
`get(uuid)`, with every field other than the stamped timestamps — the
free-form extras included — preserved unchanged. -/
theorem add_sequence_order_and_roundtrip (ps : List (Record × String))
    (hnodup : (ps.map (fun p => getField p.1 "uuid")).Nodup) :
    (getAllDrives (addSeq ps (.ok []))).1 =
      ps.map (fun p => stampRecord p.1 p.2) ∧
    (∀ p ∈ ps, ∀ u, getField p.1 "uuid" = some u →
      getDriveByUUID u (addSeq ps (.ok [])) = some (stampRecord p.1 p.2)) ∧
    (∀ (r : Record) (t k : String), k ≠ "first_seen" → k ≠ "last_seen" →
      getField (stampRecord r t) k = getField r k) := by
  have hrun := addSeq_ok ps [] (by simp) hnodup
  refine ⟨?_, ?_, ?_⟩
  · rw [hrun]
    simp [getAllDrives, initStorage]
  · intro p hp u hu
    rw [hrun]
    show (getAllDrives _).1.find? _ = _
    simp only [getAllDrives, initStorage]
    exact find?_stamped ps p u hp hu hnodup
  · intro r t k h1 h2
    exact getField_stampRecord_ne r t k h1 h2

/-- Witness for C3 on a two-record sequence with an extra free-form
field. -/
theorem add_sequence_order_and_roundtrip_witness :
    (getAllDrives (addSeq
        [([("uuid", "a"), ("label", "L"), ("extra", "E")], "t1"),
         ([("uuid", "b")], "t2")] (.ok []))).1 =
      [([("uuid", "a"), ("label", "L"), ("extra", "E")], "t1"),
       ([("uuid", "b")], "t2")].map (fun p => stampRecord p.1 p.2) ∧
    (∀ p ∈ [([("uuid", "a"), ("label", "L"), ("extra", "E")], "t1"),
         ([("uuid", "b")], "t2")], ∀ u, getField p.1 "uuid" = some u →
      getDriveByUUID u (addSeq
        [([("uuid", "a"), ("label", "L"), ("extra", "E")], "t1"),
         ([("uuid", "b")], "t2")] (.ok [])) = some (stampRecord p.1 p.2)) ∧
    (∀ (r : Record) (t k : String), k ≠ "first_seen" → k ≠ "last_seen" →
      getField (stampRecord r t) k = getField r k) :=
  add_sequence_order_and_roundtrip
    [([("uuid", "a"), ("label", "L"), ("extra", "E")], "t1"),
     ([("uuid", "b")], "t2")] (by decide)

/-- Using `updateFirst` with a uuid-preserving update leaves the stored uuid
sequence unchanged. -/
theorem map_uuid_updateFirst (ds : List Record) (u : String) (f : Record → Record)
    (hf : ∀ d, getField (f d) "uuid" = getField d "uuid") :
    (updateFirst ds u f).map (fun d => getField d "uuid") =
      ds.map (fun d => getField d "uuid") := by
  induction ds with
  | nil => rfl
  | cons d rest ih =>
    by_cases h : getField d "uuid" = some u
    · simp [updateFirst, h, hf]
    · simp [updateFirst, h, ih]

/-- One store operation starting from a parsed file with pairwise
distinct uuids ends in a parsed file with pairwise distinct uuids. -/
theorem applyOp_preserves_nodup (ds : List Record) (op : Op)
    (h : (ds.map (fun d => getField d "uuid")).Nodup) :
    ∃ ds', applyOp (.ok ds) op = .ok ds' ∧
      (ds'.map (fun d => getField d "uuid")).Nodup := by
  cases op with
  | init => exact ⟨ds, rfl, h⟩
  | add r now =>
    by_cases hany : ds.any (fun d => getField d "uuid" = getField r "uuid")
    · refine ⟨ds, ?_, h⟩
      simp [applyOp, addDrive, initStorage, hany]
    · refine ⟨ds ++ [stampRecord r now], ?_, ?_⟩
      · simp [applyOp, addDrive, initStorage, hany]
      · rw [List.map_append]
        rw [List.nodup_append]
        refine ⟨h, by simp, ?_⟩
        intro a ha hb
        simp only [List.map_cons, List.map_nil, List.mem_singleton,
          getField_stampRecord_uuid] at hb
        obtain ⟨d, hd, he⟩ := List.mem_map.mp ha
        exact hany (List.any_eq_true.mpr ⟨d, hd, by simp [he, hb]⟩)
  | touch u now =>
    refine ⟨updateFirst ds u (fun d => setField d "last_seen" now), ?_, ?_⟩
    · simp [applyOp, updateLastSeen, initStorage]
    · rw [map_uuid_updateFirst ds u _
        (fun d => getField_setField_ne d "last_seen" now "uuid" (by decide))]
      exact h
  | remove u =>
    refine ⟨ds.filter (fun d => ¬ (getField d "uuid" = some u)), ?_, ?_⟩
    · simp [applyOp, removeDrive, initStorage]
    · exact (List.Sublist.map _ (List.filter_sublist ds)).nodup h

/-- C9: from the empty store, after any sequence of `initialize`,
`add`, `touch` and `remove` operations the backing file parses and the
stored records carry pairwise-distinct uuids. -/
theorem registry_uuids_distinct (ops : List Op) :
    ∃ ds, runOps ops = .ok ds ∧
      (ds.map (fun d => getField d "uuid")).Nodup := by
  rw [runOps]
  generalize hds : ([] : List Record) = ds0
  have h0 : (ds0.map (fun d => getField d "uuid")).Nodup := by
    rw [← hds]; simp
  clear hds
  induction ops generalizing ds0 with
  | nil => exact ⟨ds0, rfl, h0⟩
  | cons op rest ih =>
    obtain ⟨ds1, hstep, hnd⟩ := applyOp_preserves_nodup ds0 op h0
    rw [List.foldl_cons, hstep]
    exact ih ds1 hnd

/-- Mapping the key-overwrite function over a record without that key
is the identity. -/
theorem mapSet_id (r : Record) (k v : String)
    (h : r.any (fun q => q.1 = k) = false) :
    r.map (fun q => if q.1 = k then (k, v) else q) = r := by
  induction r with
  | nil => rfl
  | cons hd tl ih =>
    simp only [List.any_cons, Bool.or_eq_false_iff, decide_eq_false_iff_not] at h
    simp [h.1, ih h.2]

/-- Overwriting a key leaves the presence of that key unchanged. -/
theorem any_key_mapSet (r : Record) (k v : String) :
    (r.map (fun q => if q.1 = k then (k, v) else q)).any (fun q => q.1 = k) =
      r.any (fun q => q.1 = k) := by
  induction r with
  | nil => rfl
  | cons hd tl ih =>
    by_cases h : hd.1 = k <;> simp [h, ih]

/-- Setting the same field to the same value twice equals setting it
once. -/
theorem setField_idem (r : Record) (k v : String) :
    setField (setField r k v) k v = setField r k v := by
  by_cases hany : r.any (fun q => q.1 = k)
  · have hin : setField r k v = r.map (fun p => if p.1 = k then (k, v) else p) := by
      rw [setField, if_pos hany]
    rw [hin, setField, if_pos (by rw [any_key_mapSet]; exact hany), List.map_map]
    apply List.map_congr_left
    intro q _
    by_cases h : q.1 = k <;> simp [Function.comp, h]
  · have hany' : r.any (fun q => q.1 = k) = false := by
      cases hval : r.any (fun q => q.1 = k)
      · rfl
      · exact absurd hval hany
    have hin : setField r k v = r ++ [(k, v)] := by
      rw [setField, if_neg hany]
    rw [hin, setField, if_pos (by simp), List.map_append, mapSet_id r k v hany']
    simp

/-- A conditional rewrite whose condition holds nowhere is the
identity map. -/
theorem map_if_id (ds : List Record) (p : Record → Prop) [DecidablePred p]
    (f : Record → Record) (h : ∀ k ∈ ds, ¬ p k) :
    ds.map (fun k => if p k then f k else k) = ds := by
  induction ds with
  | nil => rfl
  | cons d rest ih =>
    rw [List.map_cons, if_neg (h d (List.mem_cons_self _ _)),
      ih (fun k hk => h k (List.mem_cons_of_mem _ hk))]

/-- Bool-condition version of `map_if_id`. -/
theorem map_if_id_bool (ds : List Record) (b : Record → Bool)
    (f : Record → Record) (h : ∀ k ∈ ds, b k = false) :
    ds.map (fun k => if b k then f k else k) = ds := by
  induction ds with
  | nil => rfl
  | cons d rest ih =>
    rw [List.map_cons, h d (List.mem_cons_self _ _),
      ih (fun k hk => h k (List.mem_cons_of_mem _ hk))]
    simp

/-- Under pairwise-distinct stored uuids, rewriting the first matching
record is the same as rewriting every matching record. -/
theorem updateFirst_eq_map (ds : List Record) (u now : String)
    (h : (ds.map (fun d => getField d "uuid")).Nodup) :
    updateFirst ds u (fun d => setField d "last_seen" now) =
      ds.map (fun k =>
        if getField k "uuid" = some u then setField k "last_seen" now else k) := by
  induction ds with
  | nil => rfl
  | cons d rest ih =>
    rw [List.map_cons, List.nodup_cons] at h
    by_cases hd : getField d "uuid" = some u
    · have hrest : ∀ k ∈ rest, ¬ (getField k "uuid" = some u) := by
        intro k hk hc
        exact h.1 (by rw [← hd] at hc; exact hc ▸ List.mem_map_of_mem _ hk)
      rw [updateFirst, if_pos hd, List.map_cons, if_pos hd,
        map_if_id rest _ _ hrest]
    · rw [updateFirst, if_neg hd, List.map_cons, if_neg hd, ih h.2]

/-- One iteration of the touch loop, in closed form. -/
theorem touchStep_ok (now : String) (ds : List Record) (d : Drive)
    (h : (ds.map (fun r => getField r "uuid")).Nodup) :
    touchStep now (.ok ds) d = .ok (.ok (ds.map (fun k =>
      if getField k "uuid" = some d.uuid
      then setField k "last_seen" now else k))) := by
  rw [touchStep]
  by_cases hfind : (getDriveByUUID d.uuid (.ok ds)).isSome
  · rw [if_pos hfind]
    have hup : updateLastSeen d.uuid now (FileState.ok ds) =
        .ok (.ok (updateFirst ds d.uuid (fun r => setField r "last_seen" now))) := rfl
    rw [hup, updateFirst_eq_map ds d.uuid now h]
  · rw [if_neg hfind]
    have hnone : ds.find? (fun r => getField r "uuid" = some d.uuid) = none := by
      cases hval : ds.find? (fun r => getField r "uuid" = some d.uuid) with
      | none => rfl
      | some r =>
        exact absurd (by show (ds.find? _).isSome; rw [hval]; rfl) hfind
    have hmem := List.find?_eq_none.mp hnone
    rw [map_if_id ds _ _ (fun k hk => by simpa using hmem k hk)]

/-- Touching preserves the stored uuid sequence. -/
theorem map_uuid_touchMap (ds : List Record) (u now : String) :
    ((ds.map (fun k =>
      if getField k "uuid" = some u then setField k "last_seen" now else k)).map
        (fun d => getField d "uuid")) = ds.map (fun d => getField d "uuid") := by
  rw [List.map_map]
  apply List.map_congr_left
  intro k _
  by_cases h : getField k "uuid" = some u <;>
    simp [Function.comp, h, getField_setField_ne k "last_seen" now "uuid" (by decide)]

/-- The whole touch loop of `showDrives`, in closed form: every stored
record whose uuid is live gets `last_seen := now`, every other record
is untouched, order preserved. -/
theorem touchLoop_ok (detected : List Drive) (ds : List Record) (now : String)
    (h : (ds.map (fun r => getField r "uuid")).Nodup) :
    touchLoop detected now (.ok ds) = .ok (.ok (ds.map (fun k =>
      if detected.any (fun d => getField k "uuid" = some d.uuid)
      then setField k "last_seen" now else k))) := by
  induction detected generalizing ds with
  | nil =>
    show Except.ok (FileState.ok ds) = _
    rw [map_if_id_bool ds _ _ (fun k _ => by simp)]
  | cons d rest ih =>
    rw [touchLoop, touchStep_ok now ds d h]
    show touchLoop rest now _ = _
    rw [ih _ (by rw [map_uuid_touchMap]; exact h), List.map_map]
    congr 2
    apply List.map_congr_left
    intro k _
    by_cases hd : getField k "uuid" = some d.uuid
    · have huuid : getField (setField k "last_seen" now) "uuid" =
          getField k "uuid" := getField_setField_ne _ _ _ _ (by decide)
      have hcons : (d :: rest).any
          (fun d' => getField k "uuid" = some d'.uuid) = true := by
        simp [List.any_cons, hd]
      simp only [Function.comp, if_pos hd, hcons, if_true]
      by_cases hr : rest.any
          (fun d' => getField (setField k "last_seen" now) "uuid" = some d'.uuid)
      · rw [if_pos hr, setField_idem]
      · rw [if_neg hr]
    · have hcons : (d :: rest).any (fun d' => getField k "uuid" = some d'.uuid) =
          rest.any (fun d' => getField k "uuid" = some d'.uuid) := by
        simp [List.any_cons, hd]
      simp only [Function.comp, if_neg hd, hcons]

/-- C5: reconciliation marks a stored record connected exactly when its
uuid appears among the live nodes' uuids, the output rows follow the
stored records' insertion order, and the touch loop sets the connected
records' `last_seen` to the current time — a value no less than any
previous `last_seen` under a monotone clock — while leaving offline
records untouched. -/
theorem reconcile_marks_connected_and_touches (detected : List Drive)
    (ds : List Record) (now : String)
    (hnodup : (ds.map (fun d => getField d "uuid")).Nodup)
    (hmono : ∀ k ∈ ds, ∀ t, getField k "last_seen" = some t → t ≤ now) :
    ((reconcile detected ds).map (fun p => p.1) = ds) ∧
    (∀ p ∈ reconcile detected ds,
      p.2.1 = true ↔ ∃ d ∈ detected, getField p.1 "uuid" = some d.uuid) ∧
    (∃ f, touchLoop detected now (.ok ds) = .ok (.ok (ds.map f)) ∧
      ∀ k ∈ ds,
        ((∃ d ∈ detected, getField k "uuid" = some d.uuid) →
          getField (f k) "last_seen" = some now ∧
          getField (f k) "uuid" = getField k "uuid" ∧
          (∀ t, getField k "last_seen" = some t → t ≤ now)) ∧
        ((∀ d ∈ detected, getField k "uuid" ≠ some d.uuid) → f k = k)) := by
  refine ⟨?_, ?_, ?_⟩
  · simp only [reconcile, List.map_map]
    exact (List.map_congr_left fun k _ => rfl).trans (List.map_id ds)
  · intro p hp
    simp only [reconcile] at hp
    obtain ⟨k, hk, hpk⟩ := List.mem_map.mp hp
    subst hpk
    cases hu : getField k "uuid" with
    | none => simp [hu]
    | some u =>
      simp only [hu]
      constructor
      · intro hc
        obtain ⟨d, hd, he⟩ := List.mem_map.mp (List.elem_iff.mp hc)
        exact ⟨d, hd, by rw [he]⟩
      · rintro ⟨d, hd, he⟩
        apply List.elem_iff.mpr
        apply List.mem_map.mpr
        exact ⟨d, hd, by injection he with h; exact h.symm⟩
  · refine ⟨fun k =>
      if detected.any (fun d => getField k "uuid" = some d.uuid)
      then setField k "last_seen" now else k,
      touchLoop_ok detected ds now hnodup, ?_⟩
    intro k hk
    constructor
    · rintro ⟨d, hd, he⟩
      have hany : detected.any (fun d => getField k "uuid" = some d.uuid) = true :=
        List.any_eq_true.mpr ⟨d, hd, by simp [he]⟩
      simp only [hany, if_true]
      exact ⟨getField_setField_same k "last_seen" now,
        getField_setField_ne k "last_seen" now "uuid" (by decide),
        hmono k hk⟩
    · intro hno
      have hany : detected.any (fun d => getField k "uuid" = some d.uuid) = false := by
        rw [List.any_eq_false]
        intro d hd
        simp [hno d hd]
      simp [hany]

/-- Witness for C5: one live node matching the first of two stored
records; the matching record is touched, the offline one is untouched. -/
theorem reconcile_marks_connected_and_touches_witness :
    ((reconcile liveFixture knownFixture).map (fun p => p.1) = knownFixture) ∧
    (∀ p ∈ reconcile liveFixture knownFixture,
      p.2.1 = true ↔ ∃ d ∈ liveFixture, getField p.1 "uuid" = some d.uuid) ∧
    (∃ f, touchLoop liveFixture "2024-06-01T00:00:00.000Z" (.ok knownFixture) =
        .ok (.ok (knownFixture.map f)) ∧
      ∀ k ∈ knownFixture,
        ((∃ d ∈ liveFixture, getField k "uuid" = some d.uuid) →
          getField (f k) "last_seen" = some "2024-06-01T00:00:00.000Z" ∧
          getField (f k) "uuid" = getField k "uuid" ∧
          (∀ t, getField k "last_seen" = some t →
            t ≤ "2024-06-01T00:00:00.000Z")) ∧
        ((∀ d ∈ liveFixture, getField k "uuid" ≠ some d.uuid) → f k = k)) :=
  reconcile_marks_connected_and_touches liveFixture knownFixture
    "2024-06-01T00:00:00.000Z" (by decide)
    (by
      intro k hk t ht
      simp only [knownFixture, List.mem_cons, List.not_mem_nil, or_false] at hk
      rcases hk with h | h <;> subst h <;> simp [getField, List.find?] at ht)

/-- Entries of a child node end up in the flattened output of the
parent's children loop. -/
theorem mem_processChildren (ch : List LsblkDev) (c : LsblkDev) (e : Drive)
    (he : e ∈ processDrive c) : c ∈ ch → e ∈ processChildren ch := by
  induction ch with
  | nil => intro hc; cases hc
  | cons chead rest ih =>
    intro hc
    rcases List.mem_cons.mp hc with h | h
    · show e ∈ processDrive chead ++ processChildren rest
      exact List.mem_append.mpr (Or.inl (h ▸ he))
    · show e ∈ processDrive chead ++ processChildren rest
      exact List.mem_append.mpr (Or.inr (ih h))

/-- C10: `processDrive` pushes a disk node's own entry first; every
entry derived from any of its children (the partitions) appears in the
tail, i.e. after the parent disk's entry in the flat scan order. -/
theorem processDrive_parent_first (name : String) (size : Nat)
    (mp fs md uu : Option String) (ch : List LsblkDev) :
    ∃ tail, processDrive (.node name size "disk" mp fs md uu ch) =
      { name := name, size := formatSize size, type := "disk",
        mountpoint := jsOr mp "not mounted", fstype := jsOr fs "unknown",
        model := jsOr md "Unknown Model", uuid := jsOr uu ("NO-UUID-" ++ name),
        device := "/dev/" ++ name } :: tail ∧
      ∀ c ∈ ch, ∀ e ∈ processDrive c, e ∈ tail := by
  refine ⟨processChildren ch, ?_, ?_⟩
  · rw [processDrive]
    simp
  · intro c hc e he
    exact mem_processChildren ch c e he hc

/-- Witness for C10 at a concrete one-partition disk tree. -/
theorem processDrive_parent_first_witness :
    ∃ tail, processDrive (.node "sda" 1000 "disk" none none none none
        [.node "sda1" 999 "part" none none none none []]) =
      { name := "sda", size := formatSize 1000, type := "disk",
        mountpoint := jsOr none "not mounted", fstype := jsOr none "unknown",
        model := jsOr none "Unknown Model",
        uuid := jsOr none ("NO-UUID-" ++ "sda"),
        device := "/dev/" ++ "sda" } :: tail ∧
      ∀ c ∈ [LsblkDev.node "sda1" 999 "part" none none none none []],
        ∀ e ∈ processDrive c, e ∈ tail :=
  processDrive_parent_first "sda" 1000 none none none none
    [.node "sda1" 999 "part" none none none none []]

/-- C7 (counterexample): a partition with no filesystem uuid is scanned
with the synthesized key `NO-UUID-sda1`, auto-registration turns it
into a registry record carrying that placeholder as its uuid, and `add`
persists it — the placeholder is used as a registry key. -/
theorem noUUID_placeholder_persisted :
    autoRegisterAll
        (detectDrives [.node "sda" 1000 "disk" none none none none
          [.node "sda1" 999 "part" none none none none []]])
        [] (fun _ => ⟨none, [], false, []⟩) (fun _ => "") (fun _ => "") =
      [[("uuid", "NO-UUID-sda1"), ("label", "sda1-9990B"), ("size", "999.0B"),
        ("type", "USB/SATA Drive"), ("purpose", "General Storage"),
        ("device", "/dev/sda1")]] ∧
    addDrive
      [("uuid", "NO-UUID-sda1"), ("label", "sda1-9990B"), ("size", "999.0B"),
       ("type", "USB/SATA Drive"), ("purpose", "General Storage"),
       ("device", "/dev/sda1")] "t0" (.ok []) =
      .ok (true, .ok
        [[("uuid", "NO-UUID-sda1"), ("label", "sda1-9990B"), ("size", "999.0B"),
          ("type", "USB/SATA Drive"), ("purpose", "General Storage"),
          ("device", "/dev/sda1"), ("first_seen", "t0"), ("last_seen", "t0")]]) := by
  constructor
  · norm_num [detectDrives, processDrive, processChildren, autoRegisterAll,
      autoRegisterDrive, generateSmartLabel, labelP2, labelP3, labelP4, labelP5,
      labelP6, detectPurpose, purposeP4, purposeP5, purposeP6, getDriveType,
      formatSize, formatSizeAux, toFixed1, sizeUnits, jsOr, stripPartSuffix,
      removeDots]
    decide
  · rfl

/-- C7 (amended): a scanned device with no filesystem uuid is assigned
the placeholder key `NO-UUID-<name>`, but auto-registration does not
treat placeholders specially: any unregistered partition's uuid —
placeholder or not — becomes the uuid of the registry record it
produces for persistence. -/
theorem placeholder_assigned_and_not_screened
    (name : String) (size : Nat) (mp fs md : Option String)
    (ch : List LsblkDev) (d : Drive) (known : List Record)
    (infoOf : String → DetailedInfo) (blkidOf dirsOf : String → String)
    (hpart : d.type = "part")
    (hfresh : (known.map (fun k => getField k "uuid")).contains
      (some d.uuid) = false) :
    (processDrive (.node name size "part" mp fs md none ch)).head?.map
      (fun e => e.uuid) = some ("NO-UUID-" ++ name) ∧
    autoRegisterAll [d] known infoOf blkidOf dirsOf =
      [autoRegisterDrive d infoOf blkidOf dirsOf] ∧
    getField (autoRegisterDrive d infoOf blkidOf dirsOf) "uuid" = some d.uuid := by
  refine ⟨?_, ?_, ?_⟩
  · rw [processDrive]
    simp [jsOr]
  · have hall : ∀ x ∈ known, ¬ getField x "uuid" = some d.uuid := by
      intro x hx hc
      have hmem : (some d.uuid) ∈ known.map (fun k => getField k "uuid") := by
        rw [← hc]
        exact List.mem_map_of_mem _ hx
      have h2 : (known.map (fun k => getField k "uuid")).contains
          (some d.uuid) = true := List.elem_iff.mpr hmem
      rw [hfresh] at h2
      cases h2
    have hd : (decide (∀ x ∈ known, ¬ getField x "uuid" = some d.uuid)) = true :=
      decide_eq_true hall
    simp [autoRegisterAll, hpart, hd]
  · rfl

/-- Witness for the amended C7 at a concrete placeholder partition. -/
theorem placeholder_assigned_and_not_screened_witness :
    (processDrive (.node "sdc1" 500 "part" none none none none [])).head?.map
      (fun e => e.uuid) = some ("NO-UUID-" ++ "sdc1") ∧
    autoRegisterAll
        [⟨"sda1", "999.0B", "part", "not mounted", "unknown", "Unknown Model",
          "NO-UUID-sda1", "/dev/sda1"⟩]
        [[("uuid", "abc-123")]]
        (fun _ => ⟨none, [], false, []⟩) (fun _ => "") (fun _ => "") =
      [autoRegisterDrive
        ⟨"sda1", "999.0B", "part", "not mounted", "unknown", "Unknown Model",
          "NO-UUID-sda1", "/dev/sda1"⟩
        (fun _ => ⟨none, [], false, []⟩) (fun _ => "") (fun _ => "")] ∧
    getField (autoRegisterDrive
        ⟨"sda1", "999.0B", "part", "not mounted", "unknown", "Unknown Model",
          "NO-UUID-sda1", "/dev/sda1"⟩
        (fun _ => ⟨none, [], false, []⟩) (fun _ => "") (fun _ => ""))
      "uuid" = some "NO-UUID-sda1" :=
  placeholder_assigned_and_not_screened "sdc1" 500 none none none []
    ⟨"sda1", "999.0B", "part", "not mounted", "unknown", "Unknown Model",
      "NO-UUID-sda1", "/dev/sda1"⟩
    [[("uuid", "abc-123")]]
    (fun _ => ⟨none, [], false, []⟩) (fun _ => "") (fun _ => "")
    rfl (by decide)

end Diskmgt

/-! Concrete evaluations of the embedding, checked against hand-traced
runs of the JavaScript source. -/
section Examples
open Diskmgt
example : getAllDrives .corrupt = ([], .corrupt) := by decide
example : addDrive [("uuid", "x")] "t" .corrupt = .error () := rfl
example : addDrive [("uuid", "x")] "t" (.ok []) =
    .ok (true, .ok [[("uuid", "x"), ("first_seen", "t"), ("last_seen", "t")]]) := rfl
example : addDrive [("uuid", "x")] "t2" (.ok [[("uuid", "x"), ("first_seen", "t"), ("last_seen", "t")]]) =
    .ok (false, .ok [[("uuid", "x"), ("first_seen", "t"), ("last_seen", "t")]]) := rfl
example : formatSize 0 = "0.0B" := by
  norm_num [formatSize, formatSizeAux, toFixed1, sizeUnits]; rfl
example : formatSize 1536 = "1.5KB" := by
  norm_num [formatSize, formatSizeAux, toFixed1, sizeUnits]; rfl
example : formatSize 1073741824 = "1.0GB" := by
  norm_num [formatSize, formatSizeAux, toFixed1, sizeUnits]; rfl
example : formatSize 4000000000 = "3.7GB" := by
  norm_num [formatSize, formatSizeAux, toFixed1, sizeUnits]; rfl
example : cleanOsName "Debian GNU/Linux 12 (bookworm)" = "Debian-GNU/Linux-12-" := rfl
example : basenameStr "/mnt/data" = "data" := rfl
example : basenameStr "/" = "/" := rfl
example : basenameStr "" = "" := rfl
example : basenameStr "/mnt/usb///" = "usb" := rfl
example : stripPartSuffix "/dev/sda1" = "/dev/sda" := rfl
example : stripPartSuffix "/dev/nvme0n1p2" = "/dev/nvme0n1" := rfl
example : stripPartSuffix "/dev/mmcblk0p1" = "/dev/mmcblk0" := rfl
example : getDriveType "nvme0n1" = "NVMe SSD" := rfl
example : getDriveType "mmcblk0p1" = "SD Card" := rfl
example : strIncludes "/mnt/my-backup" "backup" = true := rfl
example : strIncludes "/mnt/xyz" "backup" = false := rfl
example : sanitizeMountName "my usb!" = "my-usb-" := rfl
example :
    generateSmartLabel
      { name := "sda1", size := "1.0GB", type := "part",
        mountpoint := "/mnt/stuff", fstype := "ext4", model := "unknown",
        uuid := "U1", device := "/dev/sda1" }
      { lxdInfo := some ⟨true, [⟨"default"⟩], []⟩,
        osInfo := [], bootable := false, bootPartitions := [] }
      "" = "LXD-default" := rfl
example :
    generateSmartLabel
      { name := "sda1", size := "1.0GB", type := "part",
        mountpoint := "/mnt/stuff", fstype := "ext4", model := "unknown",
        uuid := "U1", device := "/dev/sda1" }
      { lxdInfo := none, osInfo := [], bootable := false, bootPartitions := [] }
      "" = "stuff" := rfl
example :
    detectPurpose
      { name := "sda1", size := "1.0GB", type := "part",
        mountpoint := "not mounted", fstype := "swap", model := "unknown",
        uuid := "U1", device := "/dev/sda1" }
      { lxdInfo := none, osInfo := [], bootable := false, bootPartitions := [] }
      "" = "Swap Memory" := rfl
example :
    processDrive
      (.node "sda" 8000000000 "disk" none none (some "Kingston DT") none
        [.node "sda1" 7999000000 "part" (some "/mnt/usb") (some "ext4") none
          (some "U-1") []]) =
    [{ name := "sda", size := "7.5GB", type := "disk",
       mountpoint := "not mounted", fstype := "unknown", model := "Kingston DT",
       uuid := "NO-UUID-sda", device := "/dev/sda" },
     { name := "sda1", size := "7.4GB", type := "part",
       mountpoint := "/mnt/usb", fstype := "ext4", model := "Unknown Model",
       uuid := "U-1", device := "/dev/sda1" }] := by
  norm_num [processDrive, processChildren, formatSize, formatSizeAux, toFixed1,
    sizeUnits, jsOr]
  decide
end Examples
